import Mathlib

/-!
Verification development for the integrated Quranic analysis engine
(TypeScript sources under src/src/core).  The TypeScript classes are
shallowly embedded as Lean definitions: JavaScript numbers are modelled
as rationals, JavaScript Map objects as insertion-ordered association
lists, and the fixed regular expressions of the pattern/entity matchers
as executable matching functions over lists of characters that follow
the ECMAScript semantics of the constructs they use (word boundaries,
lazy dots, character classes, backreferences).  Nondeterministic fields
(uuid identifiers, wall-clock timestamps) and the purely informational
metadata maps of patterns are omitted from the embedded records; no
claim under verification mentions them.
-/

namespace IQAS

/-! ## ECMAScript string and regex primitives

JavaScript regular expressions without the u flag treat only ASCII
letters, digits and underscore as word characters; a word boundary
assertion holds at a position iff exactly one of the two surrounding
characters is such a word character (out of range counts as non-word).
-/

/-- ECMAScript word character class (the regex w class): A-Z, a-z, 0-9, underscore. -/
def isWordChar (c : Char) : Bool :=
  ('A' ≤ c && c ≤ 'Z') || ('a' ≤ c && c ≤ 'z') || ('0' ≤ c && c ≤ '9') || c = '_'

/-- ECMAScript whitespace class (the regex s class), restricted to the
whitespace characters that can occur in this code base's string data. -/
def isSpaceChar (c : Char) : Bool :=
  c = ' ' || c = '\t' || c = '\n' || c = '\r'

/-- Whether the character at index i is a word character (false out of range). -/
def isWordAt (t : List Char) (i : Nat) : Bool :=
  match t.get? i with
  | some c => isWordChar c
  | none => false

/-- ECMAScript word-boundary assertion at position i of the text. -/
def wordBoundary (t : List Char) (i : Nat) : Bool :=
  (if i = 0 then false else isWordAt t (i - 1)) != isWordAt t i

/-- The literal s occurs at index i of t. -/
def litAt (t s : List Char) (i : Nat) : Bool :=
  (t.drop i).take s.length == s

/-- String.prototype.includes: the needle occurs in the haystack as a
contiguous substring. -/
def strIncludes (hay needle : String) : Bool :=
  (List.range (hay.data.length + 1)).any fun i => litAt hay.data needle.data i

/-- The literal s occurs at index i with word boundaries on both sides
(the regex fragment backslash-b s backslash-b). -/
def litWBAt (t s : List Char) (i : Nat) : Bool :=
  wordBoundary t i && litAt t s i && wordBoundary t (i + s.length)

/-- ECMAScript dot (without the s flag): any character except a line terminator. -/
def isDotChar (c : Char) : Bool :=
  !(c = '\n' || c = '\r' || c = Char.ofNat 0x2028 || c = Char.ofNat 0x2029)

/-- Every character of t in the index interval [a, b) satisfies the dot class. -/
def dotRange (t : List Char) (a b : Nat) : Bool :=
  ((t.drop a).take (b - a)).all isDotChar

/-- Matcher for the tail of a chain of word-bounded literals separated by
lazy dot-stars: from position pos, for each remaining literal find the
least position j reachable through dot characters where the literal
occurs with word boundaries and the rest of the chain also matches
(this is exactly the backtracking semantics of a lazy quantifier).
Returns the end position of the full chain. -/
def chainTail (t : List Char) : List (List Char) → Nat → Option Nat
  | [], pos => some pos
  | w :: rest, pos =>
    (List.range (t.length + 1)).findSome? fun j =>
      if pos ≤ j && dotRange t pos j && litWBAt t w j then
        chainTail t rest (j + w.length)
      else none

/-- Matcher for a regex of the form backslash-b w0 backslash-b
(dot-star-lazy backslash-b wi backslash-b)*: the first literal must sit
exactly at the attempted start position. -/
def chainMatch (t : List Char) (first : List Char) (rest : List (List Char))
    (i : Nat) : Option Nat :=
  if litWBAt t first i then chainTail t rest (i + first.length) else none

/-- Generic global scan of a matcher over the text, as performed by
String.prototype.matchAll: repeatedly find the next match at or after
the current position, record (start, end), and resume at the match end
(or one past the start for an empty match). -/
def scanFrom (t : List Char) (matcher : Nat → Option Nat) :
    Nat → Nat → List (Nat × Nat)
  | 0, _ => []
  | fuel + 1, p =>
    if p > t.length then []
    else
      match matcher p with
      | some e => (p, e) :: scanFrom t matcher fuel (if e ≤ p then p + 1 else e)
      | none => scanFrom t matcher fuel (p + 1)

/-- All matches of a matcher in the text (start and end indices), in order. -/
def matchAll (t : List Char) (matcher : Nat → Option Nat) : List (Nat × Nat) :=
  scanFrom t matcher (t.length + 1) 0

/-- All word-bounded occurrences of a single literal term, as produced by
matchAll with the regex backslash-b term backslash-b built by the entity
extractor and the theme detector. -/
def findTermMatches (t w : List Char) : List (Nat × Nat) :=
  matchAll t (fun i => if litWBAt t w i then some (i + w.length) else none)

/-! ## PatternDiscovery (src/src/core/explorer: class PatternDiscovery) -/

/-- A detected pattern occurrence.  The TypeScript interface also carries
a uuid id and a metadata map; both are omitted (nondeterministic or
unused by the verified claims). -/
structure Pattern where
  type : String
  text : List Char
  startPos : Nat
  endPos : Nat
  confidence : ℚ
  deriving DecidableEq, Repr

/-- PatternDiscovery.calculatePatternConfidence: base 0.7, +0.1 for a
matched span longer than 20 characters, +0.1 for conditional_sequence,
+0.15 for exclusivity, capped at 1.0. -/
def calculatePatternConfidence (text : List Char) (type : String) : ℚ :=
  let c1 : ℚ := 0.7
  let c2 : ℚ := if text.length > 20 then c1 + 0.1 else c1
  let c3 : ℚ :=
    if type = "conditional_sequence" then c2 + 0.1
    else if type = "exclusivity" then c2 + 0.15
    else c2
  min c3 1.0

/-- Matcher for the conditional-sequence regex: word-bounded "إن", lazy
gap, word-bounded "لم", lazy gap, word-bounded "ثم". -/
def condSeqMatcher (t : List Char) (i : Nat) : Option Nat :=
  chainMatch t "إن".data ["لم".data, "ثم".data] i

/-- Matcher for the exclusivity regex: word-bounded "وما", lazy gap,
word-bounded "إلا". -/
def exclusivityMatcher (t : List Char) (i : Nat) : Option Nat :=
  chainMatch t "وما".data ["إلا".data] i

/-- First index at or after a where the character belongs to the sentence
terminator class (period, exclamation mark, Arabic question mark). -/
def findTerminator (t : List Char) (a : Nat) : Option Nat :=
  (List.range (t.length)).find? fun j =>
    a ≤ j && (match t.get? j with
              | some c => c = '.' || c = '!' || c = '؟'
              | none => false)

/-- Matcher for the address regex: word-bounded literal "يا أيها",
then a greedy run of non-terminator characters, then one terminator.
The greedy run necessarily extends to the first terminator. -/
def addressMatcher (t : List Char) (i : Nat) : Option Nat :=
  let w := "يا أيها".data
  if litWBAt t w i then
    match findTerminator t (i + w.length) with
    | some e => some (e + 1)
    | none => none
  else none

/-- Length of the maximal run of characters satisfying p starting at i. -/
def runLength (t : List Char) (p : Char → Bool) (i : Nat) : Nat :=
  ((t.drop i).takeWhile p).length

/-- Greedy repetition step for the repetition regex: from position pos,
consume a nonempty whitespace run followed by the captured word (the
backreference is a plain literal match), as many times as possible.
Returns the end position after the last complete repetition, given that
at least one repetition has already been consumed by the caller. -/
def repGreedy (t word : List Char) : Nat → Nat → Nat
  | 0, pos => pos
  | fuel + 1, pos =>
    let m := runLength t isSpaceChar pos
    if m ≥ 1 && litAt t word (pos + m) then
      repGreedy t word fuel (pos + m + word.length)
    else pos

/-- Matcher for the repetition regex (word-bounded word-run capture,
then one or more whitespace-separated backreference copies).  A word
character run shorter than maximal cannot satisfy the trailing word
boundary of the capture group, and a whitespace run shorter than
maximal cannot be followed by a word character, so no backtracking
survives beyond the greedy choices taken here. -/
def repetitionMatcher (t : List Char) (i : Nat) : Option Nat :=
  if wordBoundary t i && isWordAt t i then
    let r := runLength t isWordChar i
    let word := (t.drop i).take r
    let m := runLength t isSpaceChar (i + r)
    if m ≥ 1 && litAt t word (i + r + m) then
      some (repGreedy t word (t.length + 1) (i + r + m + word.length))
    else none
  else none

/-- The four linguistic pattern matchers of PatternDiscovery, in the
order of the linguisticPatterns array, paired with their type tags. -/
def linguisticPatterns : List (String × (List Char → Nat → Option Nat)) :=
  [("conditional_sequence", condSeqMatcher),
   ("exclusivity", exclusivityMatcher),
   ("address", addressMatcher),
   ("repetition", repetitionMatcher)]

/-- PatternDiscovery.detectLinguisticPatterns: run each matcher globally,
score each match, and keep it only when the score reaches minConfidence. -/
def detectLinguisticPatterns (t : List Char) (minConfidence : ℚ) : List Pattern :=
  linguisticPatterns.flatMap fun pat =>
    (matchAll t (pat.2 t)).filterMap fun m =>
      let matched := (t.drop m.1).take (m.2 - m.1)
      let confidence := calculatePatternConfidence matched pat.1
      if confidence ≥ minConfidence then
        some { type := pat.1, text := matched, startPos := m.1, endPos := m.2,
               confidence := confidence }
      else none

/-- Matcher for the question-answer regex (a greedy non-terminator run
containing a question mark, a whitespace run, a further non-terminator
run, and a closing period): a match starting at i succeeds iff the first
terminator e at or after i is a period and some ASCII question mark
occurs in [i, e); the match then spans [i, e]. -/
def questionMatcher (t : List Char) (i : Nat) : Option Nat :=
  match findTerminator t i with
  | some e =>
    if (match t.get? e with | some c => c = '.' | none => false)
        && ((t.drop i).take (e - i)).any (· = '?') then
      some (e + 1)
    else none
  | none => none

/-- PatternDiscovery.calculateAverageDistance over a list of positions. -/
def calculateAverageDistance (positions : List Nat) : ℚ :=
  if positions.length ≤ 1 then 0
  else
    let diffs := (positions.zip positions.tail).map fun p => (p.2 : ℚ) - (p.1 : ℚ)
    diffs.sum / ((positions.length : ℚ) - 1)

/-- The fixed theme table of detectSemanticPatterns. -/
def themes : List String :=
  ["هداية", "رحمة", "عذاب", "توحيد", "إيمان", "كفر"]

/-- PatternDiscovery.detectSemanticPatterns: the question-answer detector
(fixed confidence 0.85) followed by the theme-repetition detector
(fires at three or more word-bounded occurrences with average gap below
100; confidence 0.75 + 0.05 per occurrence).  The minConfidence argument
is received but never consulted in the source. -/
def detectSemanticPatterns (t : List Char) (_minConfidence : ℚ) : List Pattern :=
  let questions := (matchAll t (questionMatcher t)).map fun m =>
    { type := "question_answer", text := (t.drop m.1).take (m.2 - m.1),
      startPos := m.1, endPos := m.2, confidence := (0.85 : ℚ) : Pattern }
  let themePats := themes.filterMap fun theme =>
    let ms := findTermMatches t theme.data
    if ms.length ≥ 3 then
      let positions := ms.map (·.1)
      let avg := calculateAverageDistance positions
      if avg < 100 then
        let p0 := positions.headD 0
        let pLast := positions.getLastD 0
        some { type := "theme_repetition",
               text := (t.drop (p0 - 20)).take
                 (min t.length (pLast + 20) - (p0 - 20)),
               startPos := p0, endPos := pLast + theme.data.length,
               confidence := 0.75 + 0.05 * (ms.length : ℚ) }
      else none
    else none
  questions ++ themePats

/-- Options record for detectPatterns.  minConfidence none models an
absent parameter; a present value of 0 is falsy in JavaScript and also
falls back to the default, captured by effMinConfidence below. -/
structure DetectOptions where
  minConfidence : Option ℚ := none
  includeSemanticPatterns : Bool := false
  deriving DecidableEq, Repr

/-- The effective threshold computed by
(parameters.minConfidence as number) or-else 0.7. -/
def effMinConfidence (o : DetectOptions) (dflt : ℚ) : ℚ :=
  match o.minConfidence with
  | none => dflt
  | some q => if q = 0 then dflt else q

/-- PatternDiscovery.detectPatterns: linguistic patterns filtered by the
effective threshold, then (only when requested) semantic patterns, which
the source appends without applying the threshold. -/
def detectPatterns (t : List Char) (o : DetectOptions) : List Pattern :=
  let minConfidence := effMinConfidence o 0.7
  detectLinguisticPatterns t minConfidence ++
    (if o.includeSemanticPatterns then detectSemanticPatterns t minConfidence else [])

/-! ## IntegratedQuranAnalysis (src/src/core/explorer: class IntegratedQuranAnalysis) -/

/-- One reference of an entity into the analyzed text.  Positions are
rationals (JavaScript numbers); the extractor itself only produces
natural positions, but discoverRelationships accepts entities built by
any caller. -/
structure Reference where
  source : String
  startPos : ℚ
  endPos : ℚ
  deriving DecidableEq, Repr

/-- An extracted entity.  The uuid id of the source is replaced by a
caller-supplied or deterministically generated string id. -/
structure Entity where
  id : String
  type : String
  name : String
  attributes : List (String × String)
  references : List Reference
  deriving DecidableEq, Repr

/-- A discovered relationship; each evidence entry is a (source, text) pair. -/
structure Relationship where
  type : String
  sourceEntityId : String
  targetEntityId : String
  confidence : ℚ
  evidence : List (String × String)
  deriving DecidableEq, Repr

/-- The fixed term dictionary of extractEntities, in source order:
term, entity type, attribute map. -/
def entityTerms : List (String × String × List (String × String)) :=
  [("الله", "concept", [("category", "ذات إلهية")]),
   ("الرحمن", "concept", [("category", "اسم من أسماء الله")]),
   ("الرحيم", "concept", [("category", "اسم من أسماء الله")]),
   ("المؤمنون", "person", [("category", "جماعة"), ("faith", "إيمان")]),
   ("المتقون", "person", [("category", "جماعة"), ("attribute", "تقوى")]),
   ("الكافرون", "person", [("category", "جماعة"), ("faith", "كفر")]),
   ("الجنة", "place", [("category", "آخرة"), ("function", "ثواب")]),
   ("النار", "place", [("category", "آخرة"), ("function", "عقاب")]),
   ("الصلاة", "concept", [("category", "عبادة")]),
   ("الزكاة", "concept", [("category", "عبادة")]),
   ("الصيام", "concept", [("category", "عبادة")]),
   ("الحج", "concept", [("category", "عبادة")]),
   ("التقوى", "attribute", [("category", "قيمة")]),
   ("الإيمان", "attribute", [("category", "قيمة")]),
   ("الصبر", "attribute", [("category", "قيمة")]),
   ("القيامة", "event", [("category", "آخرة")])]

/-- IntegratedQuranAnalysis.extractEntities: for each dictionary term,
collect all word-bounded occurrences (the source builds the regex
backslash-b term backslash-b per term) and emit one entity per term
with at least one occurrence.  A minConfidence parameter is read in the
source but never used in this path.  Entity ids are generated
deterministically from the term index in place of uuids. -/
def extractEntities (t : List Char) : List Entity :=
  (entityTerms.enum).filterMap fun te =>
    let term := te.2.1
    let ms := findTermMatches t term.data
    if ms.length > 0 then
      some { id := "entity-" ++ toString te.1,
             type := te.2.2.1, name := term, attributes := te.2.2.2,
             references := ms.map fun m =>
               { source := "text_match", startPos := (m.1 : ℚ), endPos := (m.2 : ℚ) } }
    else none

/-- IntegratedQuranAnalysis.calculateProximity: zero when either entity
has no references, otherwise one minus a hundredth of the minimum over
reference pairs of min(|endA - startB|, |endB - startA|), floored at 0. -/
def calculateProximity (a b : Entity) : ℚ :=
  match a.references, b.references with
  | [], _ => 0
  | _, [] => 0
  | ra :: ras, rb :: rbs =>
    let pairs := ((ra :: ras).flatMap fun x => (rb :: rbs).map fun y => (x, y))
    let dists := pairs.map fun p =>
      min |p.1.endPos - p.2.startPos| |p.2.endPos - p.1.startPos|
    let minDistance := dists.foldl min (min |ra.endPos - rb.startPos| |rb.endPos - ra.startPos|)
    max 0 (1 - minDistance / 100)

/-- Object-style lookup of a string attribute. -/
def strAttr (attrs : List (String × String)) (k : String) : Option String :=
  (attrs.find? (·.1 == k)).map (·.2)

/-- IntegratedQuranAnalysis.checkAttributeApplicability. -/
def checkAttributeApplicability (entity attrEntity : Entity) : Bool :=
  if entity.type == "person" && strAttr attrEntity.attributes "category" == some "قيمة" then
    true
  else if entity.type == "concept" &&
      strAttr entity.attributes "category" == strAttr attrEntity.attributes "category" then
    true
  else false

/-- IntegratedQuranAnalysis.calculateSemanticSimilarity: the number of
attribute entries equal in key and value on both sides, divided by the
smaller attribute count (zero when either side has no attributes). -/
def calculateSemanticSimilarity (a b : Entity) : ℚ :=
  let matchCount := (a.attributes.flatMap fun pa =>
    b.attributes.filter fun pb => pa.1 == pb.1 && pa.2 == pb.2).length
  if a.attributes.length > 0 && b.attributes.length > 0 then
    (matchCount : ℚ) / (min a.attributes.length b.attributes.length : ℚ)
  else 0

/-- Ordered pairs (i strictly before j) of a list, in the nested-loop
order of the proximity pass. -/
def ordPairs : List α → List (α × α)
  | [] => []
  | x :: xs => (xs.map fun y => (x, y)) ++ ordPairs xs

/-- The fixed semantic type-pair rule table of discoverRelationships:
source type, target type, relationship type, base confidence. -/
def semanticRules : List (String × String × String × ℚ) :=
  [("person", "place", "located_in", 0.6),
   ("person", "event", "participates_in", 0.7),
   ("concept", "concept", "related_to", 0.5),
   ("event", "place", "occurs_in", 0.7)]

/-- Proximity pass of discoverRelationships (pass 1). -/
def proximityPass (entities : List Entity) : List Relationship :=
  (ordPairs entities).filterMap fun p =>
    let score := calculateProximity p.1 p.2
    if score > 0.6 then
      some { type := "co_occurs_with", sourceEntityId := p.1.id,
             targetEntityId := p.2.id, confidence := score,
             evidence := [("proximity_analysis",
               "Entities appear in close proximity in the text")] }
    else none

/-- Attribute-applicability pass of discoverRelationships (pass 2). -/
def attributePass (entities : List Entity) : List Relationship :=
  entities.flatMap fun entity =>
    if entity.type == "person" || entity.type == "concept" then
      (entities.filter fun e =>
          e.type == "attribute" && checkAttributeApplicability entity e).map
        fun attrEntity =>
          { type := "has_attribute", sourceEntityId := entity.id,
            targetEntityId := attrEntity.id, confidence := 0.75,
            evidence := [("attribute_analysis",
              "Entity " ++ entity.name ++ " may have attribute " ++ attrEntity.name)] }
    else []

/-- Semantic type-pair pass of discoverRelationships (pass 3): for each
rule and each cross pair of distinct entities of the rule's types, the
relation fires only when the similarity score exceeds 0.5, with
confidence baseConfidence times similarity. -/
def semanticPass (entities : List Entity) : List Relationship :=
  semanticRules.flatMap fun rule =>
    (entities.filter fun e => e.type == rule.1).flatMap fun source =>
      (entities.filter fun e => e.type == rule.2.1).filterMap fun target =>
        if source.id != target.id then
          let semanticScore := calculateSemanticSimilarity source target
          if semanticScore > 0.5 then
            some { type := rule.2.2.1, sourceEntityId := source.id,
                   targetEntityId := target.id,
                   confidence := rule.2.2.2 * semanticScore,
                   evidence := [("semantic_analysis",
                     "Semantic relationship between " ++ source.name ++
                       " and " ++ target.name)] }
          else none
        else none

/-- IntegratedQuranAnalysis.discoverRelationships: the three passes
concatenated, then filtered by the effective minConfidence (default
0.7, with the falsy-zero fallback). -/
def discoverRelationships (entities : List Entity) (minConfidence : Option ℚ) :
    List Relationship :=
  let minC := match minConfidence with
    | none => (0.7 : ℚ)
    | some q => if q = 0 then 0.7 else q
  (proximityPass entities ++ attributePass entities ++ semanticPass entities).filter
    (·.confidence ≥ minC)

/-- The pure payload of IntegratedQuranAnalysis.analyzeText (uuid id,
timestamp and duration metadata omitted): patterns, then entities, then
relationships over the freshly extracted entities, all on the same
parameter record. -/
structure AnalysisResult where
  text : List Char
  entities : List Entity
  relationships : List Relationship
  patterns : List Pattern
  deriving DecidableEq, Repr

/-- IntegratedQuranAnalysis.analyzeText. -/
def analyzeText (t : List Char) (o : DetectOptions) : AnalysisResult :=
  let patterns := detectPatterns t o
  let entities := extractEntities t
  let relationships := discoverRelationships entities o.minConfidence
  { text := t, entities := entities, relationships := relationships,
    patterns := patterns }

/-! ## ReasoningEngine (src/src/core/explorer: class ReasoningEngine) -/

/-- Attribute values of knowledge items: strings or string arrays. -/
inductive AttrVal where
  | str (s : String)
  | strList (l : List String)
  deriving DecidableEq, Repr

/-- A knowledge item of the reasoning engine's fixed universe. -/
structure KnowledgeItem where
  id : String
  type : String
  name : String
  description : String
  attributes : List (String × AttrVal)
  deriving DecidableEq, Repr

/-- Object-style attribute lookup (undefined becomes none). -/
def attrLookup (attrs : List (String × AttrVal)) (k : String) : Option AttrVal :=
  (attrs.find? (·.1 == k)).map (·.2)

/-- JavaScript truthiness of an attribute read: undefined and the empty
string are falsy; every array (even empty) is truthy. -/
def attrTruthy : Option AttrVal → Bool
  | none => false
  | some (.str s) => !s.isEmpty
  | some (.strList _) => true

/-- The includes test applied to an implications attribute: array
membership for an array value, substring containment for a string value
(String.prototype.includes). -/
def attrIncludes (v : AttrVal) (name : String) : Bool :=
  match v with
  | .strList l => l.contains name
  | .str s => strIncludes s name

/-- Template-string rendering of an attribute read (undefined renders as
the string undefined, arrays join with commas). -/
def attrRender : Option AttrVal → String
  | none => "undefined"
  | some (.str s) => s
  | some (.strList l) => String.intercalate "," l

/-- A relation produced by the reasoning engine (uuid id omitted). -/
structure Relation where
  sourceId : String
  targetId : String
  type : String
  confidence : ℚ
  evidence : List (String × String)
  deriving DecidableEq, Repr

/-- The seed knowledge items loaded by initializeKnowledgeItems, keyed by id. -/
def seedItems : List (String × KnowledgeItem) :=
  [("concept-1",
    { id := "concept-1", type := "concept", name := "تقوى",
      description := "الوقاية من عذاب الله بطاعته",
      attributes := [("category", .str "قيمة"), ("domain", .str "أخلاق"),
                     ("implications", .strList ["خشية", "طاعة"])] }),
   ("concept-2",
    { id := "concept-2", type := "concept", name := "إيمان",
      description := "التصديق بالقلب والإقرار باللسان والعمل بالجوارح",
      attributes := [("category", .str "قيمة"), ("domain", .str "عقيدة"),
                     ("implications", .strList ["عمل صالح", "تقوى"])] }),
   ("concept-3",
    { id := "concept-3", type := "attribute", name := "خشية",
      description := "الخوف المقترن بالتعظيم",
      attributes := [("category", .str "صفة"), ("domain", .str "أخلاق")] }),
   ("concept-4",
    { id := "concept-4", type := "attribute", name := "طاعة",
      description := "الانقياد للأوامر والابتعاد عن النواهي",
      attributes := [("category", .str "سلوك"), ("domain", .str "أخلاق")] }),
   ("concept-5",
    { id := "concept-5", type := "concept", name := "عمل صالح",
      description := "كل عمل يوافق شرع الله",
      attributes := [("category", .str "سلوك"), ("domain", .str "عبادات")] })]

/-- Replace the first element satisfying p by f of it (the functional
rendering of mutating the element returned by Array.prototype.find). -/
def updateFirst (p : α → Bool) (f : α → α) : List α → List α
  | [] => []
  | x :: xs => if p x then f x :: xs else x :: updateFirst p f xs

/-- The direct pass of ReasoningEngine.discoverRelations: a similar_to
relation at 0.6 on a type match; on a category match (object-equality
of the two category reads) either a +0.2 boost with an extra evidence
entry on the existing similar_to relation, or a fresh similar_to
relation at 0.7. -/
def directRelations (srcId tgtId : String) (a b : KnowledgeItem) : List Relation :=
  let rels : List Relation :=
    if a.type == b.type then
      [{ sourceId := srcId, targetId := tgtId, type := "similar_to",
         confidence := 0.6,
         evidence := [("type_matching", "Both items are of type " ++ a.type)] }]
    else []
  if attrLookup a.attributes "category" == attrLookup b.attributes "category" then
    let catEvidence := ("category_matching",
      "Both items belong to category " ++ attrRender (attrLookup a.attributes "category"))
    if rels.any (·.type == "similar_to") then
      updateFirst (·.type == "similar_to")
        (fun r =>
          { r with
            confidence := r.confidence + 0.2
            evidence := r.evidence ++ [catEvidence] })
        rels
    else
      rels ++ [{ sourceId := srcId, targetId := tgtId, type := "similar_to",
                 confidence := 0.7, evidence := [catEvidence] }]
  else rels

/-- The three inference rules of the engine, in source order: a
condition and a relation generator. -/
def inferenceRules :
    List ((KnowledgeItem → KnowledgeItem → Bool) ×
          (String → String → KnowledgeItem → KnowledgeItem → Relation)) :=
  [(fun a b => a.type == b.type &&
      attrLookup a.attributes "category" == attrLookup b.attributes "category",
    fun srcId tgtId a b =>
      { sourceId := srcId, targetId := tgtId, type := "similar_to",
        confidence := 0.7,
        evidence := [("inference_rule",
          "Both " ++ a.name ++ " and " ++ b.name ++ " are of type " ++ a.type ++
            " and category " ++ attrRender (attrLookup a.attributes "category"))] }),
   (fun a b => a.type == "concept" && b.type == "attribute" &&
      attrLookup a.attributes "domain" == attrLookup b.attributes "domain",
    fun srcId tgtId a b =>
      { sourceId := srcId, targetId := tgtId, type := "has_attribute",
        confidence := 0.8,
        evidence := [("inference_rule",
          a.name ++ " may have attribute " ++ b.name ++ " based on domain matching")] }),
   (fun a b =>
      attrTruthy (attrLookup a.attributes "implications") &&
        (match attrLookup a.attributes "implications" with
         | some v => attrIncludes v b.name
         | none => false),
    fun srcId tgtId a b =>
      { sourceId := srcId, targetId := tgtId, type := "implies",
        confidence := 0.75,
        evidence := [("inference_rule",
          a.name ++ " implies " ++ b.name ++ " based on explicit implication listing")] })]

/-- ReasoningEngine.discoverRelations over a given knowledge-item store:
direct relations, then every firing inference rule, then the explicit
implication relation at 0.9, filtered by the effective minConfidence
(default 0.6, falsy-zero fallback).  Raises the not-found error when
either id is absent. -/
def discoverRelations (store : List (String × KnowledgeItem))
    (sourceId targetId : String) (minConfidence : Option ℚ) :
    Except String (List Relation) :=
  let minC := match minConfidence with
    | none => (0.6 : ℚ)
    | some q => if q = 0 then 0.6 else q
  match (store.find? (·.1 == sourceId)).map (·.2),
        (store.find? (·.1 == targetId)).map (·.2) with
  | some a, some b =>
    let rels := directRelations sourceId targetId a b
    let rels := inferenceRules.foldl
      (fun acc rule => if rule.1 a b then acc ++ [rule.2 sourceId targetId a b] else acc)
      rels
    let rels :=
      if attrTruthy (attrLookup a.attributes "implications") &&
          (match attrLookup a.attributes "implications" with
           | some v => attrIncludes v b.name
           | none => false) then
        rels ++ [{ sourceId := sourceId, targetId := targetId, type := "implies",
                   confidence := 0.9,
                   evidence := [("explicit_implication",
                     a.name ++ " explicitly implies " ++ b.name)] }]
      else rels
    .ok (rels.filter (·.confidence ≥ minC))
  | _, _ => .error "Source or target item not found"

/-- An inference record of inferKnowledge (uuid relation id omitted). -/
structure Inference where
  sourceId : String
  targetId : String
  relationType : String
  confidence : ℚ
  evidence : List (String × String)
  deriving DecidableEq, Repr

/-- Options of inferKnowledge; maxDepth is carried as declared by the
source but never read past its default resolution. -/
structure InferOptions where
  minConfidence : Option ℚ := none
  maxDepth : Option ℚ := none
  deriving DecidableEq, Repr

/-- The iteration of inferKnowledge over the remaining store entries. -/
def inferLoop (store : List (String × KnowledgeItem)) (conceptId : String)
    (minC : ℚ) : List (String × KnowledgeItem) → Except String (List Inference)
  | [] => .ok []
  | (_, targetItem) :: rest =>
    if targetItem.id == conceptId then inferLoop store conceptId minC rest
    else
      match discoverRelations store conceptId targetItem.id (some minC) with
      | .error e => .error e
      | .ok rels =>
        match inferLoop store conceptId minC rest with
        | .error e => .error e
        | .ok tail =>
          .ok ((rels.map fun r =>
            { sourceId := r.sourceId, targetId := r.targetId,
              relationType := r.type, confidence := r.confidence,
              evidence := r.evidence : Inference }) ++ tail)

/-- ReasoningEngine.inferKnowledge: resolve the thresholds (maxDepth is
resolved to its default but never used afterwards), fail when the
concept id is unknown, and otherwise run one flat discoverRelations
sweep over every other knowledge item. -/
def inferKnowledge (store : List (String × KnowledgeItem)) (conceptId : String)
    (o : InferOptions) : Except String (List Inference) :=
  let minC := match o.minConfidence with
    | none => (0.7 : ℚ)
    | some q => if q = 0 then 0.7 else q
  match (store.find? (·.1 == conceptId)).map (·.2) with
  | none => .error "Concept item not found"
  | some _ => inferLoop store conceptId minC store

/-! ## KnowledgeIntegrator (src/src/core/integration: KnowledgeNode, KnowledgeIntegrator) -/

/-- One stored verification result of a node (the wall-clock timestamp
and the free-form details map of the source are omitted). -/
structure VerificationResult where
  method : String
  result : Bool
  confidence : ℚ
  deriving DecidableEq, Repr

/-- The payload of one directed edge of a node. -/
structure RelData where
  type : String
  confidence : ℚ
  deriving DecidableEq, Repr

/-- A knowledge-graph node.  The uuid id assigned by the constructor is
modelled as a caller-supplied string; confidence starts at 1.0. -/
structure KnowledgeNode where
  id : String
  type : String
  name : String
  source : String
  confidence : ℚ := 1.0
  attributes : List (String × String) := []
  relationships : List (String × RelData) := []
  verificationResults : List VerificationResult := []
  deriving DecidableEq, Repr

/-- JavaScript Map.prototype.set on an insertion-ordered association
list (which a Map never holds duplicate keys in): overwrite the entry
in place when the key exists, append at the end otherwise. -/
def mapSet : List (String × α) → String → α → List (String × α)
  | [], k, v => [(k, v)]
  | p :: rest, k, v => if p.1 == k then (k, v) :: rest else p :: mapSet rest k v

/-- JavaScript Map.prototype.get (undefined becomes none). -/
def mapGet : List (String × α) → String → Option α
  | [], _ => none
  | p :: rest, k => if p.1 == k then some p.2 else mapGet rest k

/-- KnowledgeNode.addRelationship: Map.set of the edge payload under the
target node id. -/
def addRelationship (n : KnowledgeNode) (targetNodeId : String)
    (type : String) (confidence : ℚ) : KnowledgeNode :=
  { n with relationships := mapSet n.relationships targetNodeId ⟨type, confidence⟩ }

/-- Sum of the confidences of the stored verification results. -/
def totalWeight (rs : List VerificationResult) : ℚ :=
  (rs.map (·.confidence)).sum

/-- Sum of the result confidences, signed by the boolean outcome. -/
def weightedSum (rs : List VerificationResult) : ℚ :=
  (rs.map fun r => if r.result then r.confidence else -r.confidence).sum

/-- KnowledgeNode.updateConfidence (the private recompute step): no-op
on an empty history, otherwise the dampened blend of the previous
confidence and the normalized signed weighted sum. -/
def updateConfidence (n : KnowledgeNode) : KnowledgeNode :=
  if n.verificationResults = [] then n
  else
    let tw := totalWeight n.verificationResults
    let ws := weightedSum n.verificationResults
    let normalizedConfidence := (ws + tw) / (2 * tw)
    { n with confidence := 0.3 * n.confidence + 0.7 * normalizedConfidence }

/-- KnowledgeNode.addVerificationResult: append the result, then
recompute the confidence. -/
def addVerificationResult (n : KnowledgeNode) (method : String)
    (result : Bool) (confidence : ℚ) : KnowledgeNode :=
  updateConfidence
    { n with verificationResults :=
        n.verificationResults ++ [⟨method, result, confidence⟩] }

/-- Folding a whole sequence of addVerificationResult calls over a node. -/
def addVerificationResults (n : KnowledgeNode)
    (calls : List (String × Bool × ℚ)) : KnowledgeNode :=
  calls.foldl (fun node c => addVerificationResult node c.1 c.2.1 c.2.2) n

/-- The KnowledgeIntegrator store (the sources set and the verification
method table play no part in the relationship claims and are omitted). -/
structure KnowledgeIntegrator where
  nodes : List (String × KnowledgeNode) := []
  deriving DecidableEq, Repr

/-- KnowledgeIntegrator.getReverseRelationshipType: the fixed reverse
table, falling back to the _by suffix. -/
def getReverseRelationshipType (type : String) : String :=
  let reverseMap : List (String × String) :=
    [("contains", "contained_in"),
     ("contains_part", "part_of"),
     ("causes", "caused_by"),
     ("precedes", "follows"),
     ("parent_of", "child_of"),
     ("implies", "implied_by"),
     ("supports", "supported_by"),
     ("contradicts", "contradicted_by")]
  match mapGet reverseMap type with
  | some r => r
  | none => type ++ "_by"

/-- KnowledgeIntegrator.createRelationship: false and untouched state
when either id is unknown; otherwise the directed edge is set on the
source node, and for a bidirectional call the reverse edge is set on
the target node as observed after the first mutation (the source
aliases the two node objects, so a self-relationship sees its own
forward edge before overwriting it). -/
def createRelationship (ig : KnowledgeIntegrator) (sourceNodeId targetNodeId : String)
    (type : String) (confidence : ℚ) (bidirectional : Bool) :
    Bool × KnowledgeIntegrator :=
  match mapGet ig.nodes sourceNodeId, mapGet ig.nodes targetNodeId with
  | some sourceNode, some tgt0 =>
    let nodes1 := mapSet ig.nodes sourceNodeId
      (addRelationship sourceNode targetNodeId type confidence)
    let nodes2 :=
      if bidirectional then
        let reverseType := getReverseRelationshipType type
        let targetNode := (mapGet nodes1 targetNodeId).getD tgt0
        mapSet nodes1 targetNodeId
          (addRelationship targetNode sourceNodeId reverseType confidence)
      else nodes1
    (true, { nodes := nodes2 })
  | _, _ => (false, ig)

/-! ## SystematicExplorer (src/src/core/explorer: class SystematicExplorer) -/

/-- A stored concept of the explorer's concept store. -/
structure Concept where
  id : String
  name : String
  type : String
  attributes : List (String × String)
  deriving DecidableEq, Repr

/-- One entry of an exploration's result list. -/
structure ConceptResult where
  id : String
  name : String
  type : String
  attributes : List (String × String)
  references : List String
  deriving DecidableEq, Repr

/-- The mutable state threaded through exploreRecursively: the concept
store (grown by materialization), the call-scoped visited set, and a
counter standing in for the uuid generator. -/
structure ExploreState where
  store : List (String × Concept)
  visited : List String
  counter : Nat
  deriving DecidableEq, Repr

/-- SystematicExplorer.findRelatedConcepts: every stored concept other
than the given one, first three in store order. -/
def findRelatedConcepts (store : List (String × Concept)) (conceptId : String) :
    List Concept :=
  ((store.map (·.2)).filter fun c => c.id != conceptId).take 3

mutual

/-- SystematicExplorer.exploreRecursively: stop at depth at most 0 or on
a visited name; mark the name visited; materialize an unknown concept
when nothing in the store matches by equality or substring; otherwise
process each matching concept in store order. -/
def exploreRec (depth : Int) (conceptName : String) (s : ExploreState) :
    List ConceptResult × ExploreState :=
  if depth ≤ 0 ∨ s.visited.contains conceptName then ([], s)
  else
    let s1 : ExploreState := { s with visited := conceptName :: s.visited }
    let matching := (s1.store.map (·.2)).filter fun c =>
      c.name == conceptName || strIncludes c.name conceptName
    if matching.isEmpty then
      let newId := "generated-" ++ toString s1.counter
      ([⟨newId, conceptName, "unknown", [], []⟩],
       { s1 with
         store := s1.store ++ [(newId, ⟨newId, conceptName, "unknown", []⟩)]
         counter := s1.counter + 1 })
    else matchLoop depth matching s1
termination_by (depth.toNat, 1, 0)

/-- The loop over the matching concepts: emit the concept (with its
related ids as references) and, above depth 1, recurse into the related
names not yet visited. -/
def matchLoop (depth : Int) (cs : List Concept) (s : ExploreState) :
    List ConceptResult × ExploreState :=
  match cs with
  | [] => ([], s)
  | c :: rest =>
    let related := findRelatedConcepts s.store c.id
    let res : ConceptResult :=
      ⟨c.id, c.name, c.type, c.attributes, related.map (·.id)⟩
    let step :=
      if h : 1 < depth then relatedLoop (depth - 1) (related.map (·.name)) s
      else ([], s)
    let tail := matchLoop depth rest step.2
    (res :: (step.1 ++ tail.1), tail.2)
termination_by (depth.toNat, 0, cs.length + 1)

/-- The loop over the related names at the decremented depth, skipping
names already visited. -/
def relatedLoop (depth : Int) (names : List String) (s : ExploreState) :
    List ConceptResult × ExploreState :=
  match names with
  | [] => ([], s)
  | n :: rest =>
    let step := if s.visited.contains n then (([] : List ConceptResult), s)
      else exploreRec depth n s
    let tail := relatedLoop depth rest step.2
    (step.1 ++ tail.1, tail.2)
termination_by (depth.toNat, 2, names.length)

end

/-- The three initial concepts loaded by loadInitialConcepts. -/
def initialConcepts : List (String × Concept) :=
  [("concept-1", ⟨"concept-1", "تقوى", "قيمة", [("importance", "high")]⟩),
   ("concept-2", ⟨"concept-2", "إيمان", "قيمة", [("importance", "high")]⟩),
   ("concept-3", ⟨"concept-3", "صبر", "قيمة", [("importance", "high")]⟩)]

/-- The loop body of exploreRecursively at depth exactly 1, written
without any recursive call: every matching concept is emitted with its
related ids, and no related concept is explored. -/
def matchOnceLoop (cs : List Concept) (s : ExploreState) :
    List ConceptResult × ExploreState :=
  match cs with
  | [] => ([], s)
  | c :: rest =>
    let related := findRelatedConcepts s.store c.id
    let res : ConceptResult :=
      ⟨c.id, c.name, c.type, c.attributes, related.map (·.id)⟩
    let tail := matchOnceLoop rest s
    (res :: tail.1, tail.2)

/-- One-level exploration (the claimed behavior of a maxDepth 1 call):
the stopping rules, materialization and per-concept emission of
exploreRecursively, with no recursion into related concepts. -/
def exploreOneLevel (conceptName : String) (s : ExploreState) :
    List ConceptResult × ExploreState :=
  if s.visited.contains conceptName then ([], s)
  else
    let s1 : ExploreState := { s with visited := conceptName :: s.visited }
    let matching := (s1.store.map (·.2)).filter fun c =>
      c.name == conceptName || strIncludes c.name conceptName
    if matching.isEmpty then
      let newId := "generated-" ++ toString s1.counter
      ([⟨newId, conceptName, "unknown", [], []⟩],
       { s1 with
         store := s1.store ++ [(newId, ⟨newId, conceptName, "unknown", []⟩)]
         counter := s1.counter + 1 })
    else matchOnceLoop matching s1

/-! ## Supporting lemmas -/

/-- In a text without ASCII word characters, no position is a word position. -/
lemma isWordAt_eq_false {t : List Char} (h : ∀ c ∈ t, isWordChar c = false)
    (i : Nat) : isWordAt t i = false := by
  unfold isWordAt
  cases hg : t.get? i with
  | none => rfl
  | some c => exact h c (List.get?_mem hg)

/-- In a text without ASCII word characters, no position is a word boundary. -/
lemma wordBoundary_eq_false {t : List Char} (h : ∀ c ∈ t, isWordChar c = false)
    (i : Nat) : wordBoundary t i = false := by
  unfold wordBoundary
  by_cases hi : i = 0 <;> simp [hi, isWordAt_eq_false h]

/-- In a text without ASCII word characters, no word-bounded literal occurs. -/
lemma litWBAt_eq_false {t : List Char} (h : ∀ c ∈ t, isWordChar c = false)
    (w : List Char) (i : Nat) : litWBAt t w i = false := by
  unfold litWBAt
  rw [wordBoundary_eq_false h]
  rfl

/-- A scan over a matcher that never fires produces no matches. -/
lemma scanFrom_eq_nil {t : List Char} {matcher : Nat → Option Nat}
    (h : ∀ i, matcher i = none) :
    ∀ fuel p, scanFrom t matcher fuel p = [] := by
  intro fuel
  induction fuel with
  | zero => intro p; rfl
  | succ n ih =>
    intro p
    unfold scanFrom
    rw [h p]
    by_cases hp : p > t.length <;> simp [hp, ih]

/-- In a text without ASCII word characters, no term has word-bounded matches. -/
lemma findTermMatches_eq_nil {t : List Char} (h : ∀ c ∈ t, isWordChar c = false)
    (w : List Char) : findTermMatches t w = [] := by
  unfold findTermMatches matchAll
  apply scanFrom_eq_nil
  intro i
  rw [litWBAt_eq_false h]
  simp

/-- Relationship discovery over an empty entity list yields nothing. -/
lemma discoverRelationships_nil (mo : Option ℚ) :
    discoverRelationships [] mo = [] := rfl

/-! ## Claims -/

/-- C1: the repository's own tests (pattern_discovery.test.ts) require a
conditional_sequence pattern of confidence at least 0.7 on the first
text and an exclusivity pattern on the second, but detectPatterns with
default options returns the empty list on both: every linguistic regex
anchors its Arabic literals with ECMAScript word boundaries, which only
fire next to ASCII word characters, so no Arabic-only text can ever
match. -/
theorem c1_detect_patterns_empty_on_test_texts :
    detectPatterns "إن لم تتب ثم تعمل صالحاً فلن تنجو.".data ({} : DetectOptions) = [] ∧
    detectPatterns "وما أرسلناك إلا رحمة للعالمين.".data ({} : DetectOptions) = [] := by
  constructor <;> decide

/-- C2: on any text without ASCII word characters (in particular any
purely Arabic text) extractEntities returns the empty list, because
every dictionary term is matched through ASCII-anchored word
boundaries; consequently analyzeText returns empty entity and
relationship lists on such texts. -/
theorem c2_extract_entities_empty_without_ascii (t : List Char)
    (h : ∀ c ∈ t, isWordChar c = false) :
    extractEntities t = [] ∧
      ∀ o : DetectOptions,
        (analyzeText t o).entities = [] ∧ (analyzeText t o).relationships = [] := by
  have he : extractEntities t = [] := by
    unfold extractEntities
    rw [List.filterMap_eq_nil_iff]
    intro te _
    simp [findTermMatches_eq_nil h]
  refine ⟨he, fun o => ⟨?_, ?_⟩⟩ <;>
    simp [analyzeText, he, discoverRelationships_nil]

/-- C2 witness at a concrete Arabic text (itself a dictionary term). -/
theorem c2_witness :
    (∀ c ∈ "الله".data, isWordChar c = false) ∧ extractEntities "الله".data = [] :=
  ⟨by decide, (c2_extract_entities_empty_without_ascii "الله".data (by decide)).1⟩

/-- C4: every addVerificationResult call recomputes the node confidence
as 0.3 times the previous confidence plus 0.7 times the normalized
score (weightedSum + totalWeight) / (2 * totalWeight) over all stored
verification results including the new one. -/
theorem c4_confidence_recompute (n : KnowledgeNode) (method : String)
    (result : Bool) (confidence : ℚ) :
    (addVerificationResult n method result confidence).confidence =
      0.3 * n.confidence +
        0.7 * ((weightedSum (n.verificationResults ++ [⟨method, result, confidence⟩]) +
                 totalWeight (n.verificationResults ++ [⟨method, result, confidence⟩])) /
               (2 * totalWeight (n.verificationResults ++ [⟨method, result, confidence⟩]))) := by
  unfold addVerificationResult updateConfidence
  simp

/-- C9: inferKnowledge performs one flat discoverRelations sweep over
the other knowledge items and never reads the resolved maxDepth, so any
two maxDepth option values give identical results, over every store and
concept id. -/
theorem c9_maxdepth_irrelevant (store : List (String × KnowledgeItem))
    (conceptId : String) (mo d1 d2 : Option ℚ) :
    inferKnowledge store conceptId ⟨mo, d1⟩ =
      inferKnowledge store conceptId ⟨mo, d2⟩ := rfl

/-- C5 counterexample: from a fresh node (confidence 1, no history), the
call sequence (true, 2) then (false, -1) — addVerificationResult
accepts any confidence value — drives the confidence to 1.7, outside
[0, 1], refuting the claim for arbitrary finite call sequences. -/
theorem c5_counterexample :
    (addVerificationResults ⟨"n1", "concept", "x", "quran", 1, [], [], []⟩
        [("m", true, 2), ("m", false, -1)]).confidence = 17 / 10 ∧
    ¬ (addVerificationResults ⟨"n1", "concept", "x", "quran", 1, [], [], []⟩
        [("m", true, 2), ("m", false, -1)]).confidence ≤ 1 := by
  constructor <;>
    norm_num [addVerificationResults, addVerificationResult, updateConfidence,
      totalWeight, weightedSum]

/-- The signed weighted sum is dominated in absolute value by the total
weight when all stored confidences are nonnegative. -/
lemma abs_weightedSum_le {rs : List VerificationResult}
    (h : ∀ r ∈ rs, 0 ≤ r.confidence) : |weightedSum rs| ≤ totalWeight rs := by
  induction rs with
  | nil => simp [weightedSum, totalWeight]
  | cons r rest ih =>
    have hr : 0 ≤ r.confidence := h r (List.mem_cons_self r rest)
    have hrest := ih fun x hx => h x (List.mem_cons_of_mem r hx)
    have hws : weightedSum (r :: rest) =
        (if r.result then r.confidence else -r.confidence) + weightedSum rest := by
      simp [weightedSum]
    have htw : totalWeight (r :: rest) = r.confidence + totalWeight rest := by
      simp [totalWeight]
    rw [hws, htw]
    calc |(if r.result then r.confidence else -r.confidence) + weightedSum rest|
        ≤ |if r.result then r.confidence else -r.confidence| + |weightedSum rest| :=
          abs_add _ _
      _ ≤ r.confidence + totalWeight rest := by
          gcongr
          split <;> simp [abs_of_nonneg hr, abs_of_nonpos (neg_nonpos.mpr hr), hr]

/-- The total weight of a nonempty history of strictly positive
confidences is strictly positive. -/
lemma totalWeight_pos {rs : List VerificationResult}
    (hne : rs ≠ []) (h : ∀ r ∈ rs, 0 < r.confidence) : 0 < totalWeight rs := by
  unfold totalWeight
  apply List.sum_pos
  · intro q hq
    obtain ⟨r, hr, rfl⟩ := List.mem_map.mp hq
    exact h r hr
  · simpa using hne

/-- The recompute step leaves the verification history untouched. -/
lemma updateConfidence_results (n : KnowledgeNode) :
    (updateConfidence n).verificationResults = n.verificationResults := by
  unfold updateConfidence
  split <;> rfl

/-- Closed form of the confidence after one addVerificationResult call. -/
lemma addVerificationResult_confidence (n : KnowledgeNode) (method : String)
    (result : Bool) (c : ℚ) :
    (addVerificationResult n method result c).confidence =
      0.3 * n.confidence +
        0.7 * ((weightedSum (n.verificationResults ++ [⟨method, result, c⟩]) +
                 totalWeight (n.verificationResults ++ [⟨method, result, c⟩])) /
               (2 * totalWeight (n.verificationResults ++ [⟨method, result, c⟩]))) := by
  unfold addVerificationResult updateConfidence
  simp

/-- The verification history after one call is the old history plus the
new entry. -/
lemma addVerificationResult_results (n : KnowledgeNode) (method : String)
    (result : Bool) (c : ℚ) :
    (addVerificationResult n method result c).verificationResults =
      n.verificationResults ++ [⟨method, result, c⟩] := by
  unfold addVerificationResult
  rw [updateConfidence_results]

/-- One addVerificationResult call with strictly positive confidence
keeps the confidence in [0,1] and the history strictly positive. -/
lemma addVerificationResult_step (n : KnowledgeNode)
    (h0 : 0 ≤ n.confidence) (h1 : n.confidence ≤ 1)
    (hres : ∀ r ∈ n.verificationResults, 0 < r.confidence)
    (method : String) (result : Bool) (c : ℚ) (hc : 0 < c) :
    0 ≤ (addVerificationResult n method result c).confidence ∧
      (addVerificationResult n method result c).confidence ≤ 1 ∧
      ∀ r ∈ (addVerificationResult n method result c).verificationResults,
        0 < r.confidence := by
  have hres' : ∀ r ∈ n.verificationResults ++ [⟨method, result, c⟩],
      0 < r.confidence := by
    intro r hr
    rcases List.mem_append.mp hr with hm | hm
    · exact hres r hm
    · simp at hm; subst hm; exact hc
  have hne : n.verificationResults ++ [(⟨method, result, c⟩ : VerificationResult)] ≠ [] := by
    simp
  have htw : 0 < totalWeight (n.verificationResults ++ [⟨method, result, c⟩]) :=
    totalWeight_pos hne hres'
  have habs : |weightedSum (n.verificationResults ++ [⟨method, result, c⟩])| ≤
      totalWeight (n.verificationResults ++ [⟨method, result, c⟩]) :=
    abs_weightedSum_le fun r hr => le_of_lt (hres' r hr)
  set tw := totalWeight (n.verificationResults ++ [⟨method, result, c⟩]) with htwdef
  set ws := weightedSum (n.verificationResults ++ [⟨method, result, c⟩]) with hwsdef
  have hwl : -tw ≤ ws := (abs_le.mp habs).1
  have hwu : ws ≤ tw := (abs_le.mp habs).2
  have hnorm0 : 0 ≤ (ws + tw) / (2 * tw) := by
    apply div_nonneg <;> linarith
  have hnorm1 : (ws + tw) / (2 * tw) ≤ 1 := by
    rw [div_le_one (by linarith)]
    linarith
  have hconf := addVerificationResult_confidence n method result c
  rw [← htwdef, ← hwsdef] at hconf
  refine ⟨?_, ?_, ?_⟩
  · rw [hconf]; nlinarith
  · rw [hconf]; nlinarith
  · rw [addVerificationResult_results]; exact hres'

/-- Invariant of a whole call sequence with strictly positive
verification confidences. -/
lemma addVerificationResults_inv (calls : List (String × Bool × ℚ)) :
    ∀ n : KnowledgeNode, 0 ≤ n.confidence → n.confidence ≤ 1 →
      (∀ r ∈ n.verificationResults, 0 < r.confidence) →
      (∀ cl ∈ calls, 0 < cl.2.2) →
      0 ≤ (addVerificationResults n calls).confidence ∧
        (addVerificationResults n calls).confidence ≤ 1 := by
  induction calls with
  | nil => intro n h0 h1 _ _; exact ⟨h0, h1⟩
  | cons cl rest ih =>
    intro n h0 h1 hres hcalls
    have hc : 0 < cl.2.2 := hcalls cl (List.mem_cons_self cl rest)
    obtain ⟨s0, s1, sres⟩ := addVerificationResult_step n h0 h1 hres cl.1 cl.2.1 cl.2.2 hc
    have hstep : addVerificationResults n (cl :: rest) =
        addVerificationResults (addVerificationResult n cl.1 cl.2.1 cl.2.2) rest := rfl
    rw [hstep]
    exact ih _ s0 s1 sres fun x hx => hcalls x (List.mem_cons_of_mem cl hx)

/-- C5 (amended): from a fresh node (confidence 1.0, empty history) one
negative result with strictly positive confidence drops the confidence
to 0.3, strictly below 1.0; and any finite sequence of calls with
strictly positive verification confidences keeps the confidence inside
[0,1]. -/
theorem c5_theorem :
    (∀ (n : KnowledgeNode) (method : String) (c : ℚ), n.confidence = 1 →
      n.verificationResults = [] → 0 < c →
      (addVerificationResult n method false c).confidence < 1) ∧
    (∀ (n : KnowledgeNode) (calls : List (String × Bool × ℚ)), n.confidence = 1 →
      n.verificationResults = [] → (∀ cl ∈ calls, 0 < cl.2.2) →
      0 ≤ (addVerificationResults n calls).confidence ∧
        (addVerificationResults n calls).confidence ≤ 1) := by
  constructor
  · intro n method c h1 hres hc
    have hconf := addVerificationResult_confidence n method false c
    rw [hres, h1] at hconf
    have hws : weightedSum ([] ++ [⟨method, false, c⟩]) = -c := by
      simp [weightedSum]
    have htw : totalWeight ([] ++ [⟨method, false, c⟩]) = c := by
      simp [totalWeight]
    rw [hws, htw] at hconf
    have : (-c + c) / (2 * c) = 0 := by
      rw [neg_add_cancel, zero_div]
    rw [this] at hconf
    rw [hconf]
    norm_num
  · intro n calls h1 hres hcalls
    apply addVerificationResults_inv calls n (by rw [h1]; norm_num) (by rw [h1]) _ hcalls
    rw [hres]
    intro r hr
    simp at hr

/-- C5 witness: a fresh node, one positive then one negative unit-weight
result; the confidence stays below 1 and inside [0,1]. -/
theorem c5_witness :
    (addVerificationResult ⟨"n1", "concept", "x", "quran", 1, [], [], []⟩
        "m" false (1/2)).confidence < 1 ∧
    0 ≤ (addVerificationResults ⟨"n1", "concept", "x", "quran", 1, [], [], []⟩
        [("a", true, 1), ("b", false, 1/2)]).confidence ∧
      (addVerificationResults ⟨"n1", "concept", "x", "quran", 1, [], [], []⟩
        [("a", true, 1), ("b", false, 1/2)]).confidence ≤ 1 :=
  ⟨c5_theorem.1 ⟨"n1", "concept", "x", "quran", 1, [], [], []⟩ "m" (1/2) rfl rfl
      (by norm_num),
   c5_theorem.2 ⟨"n1", "concept", "x", "quran", 1, [], [], []⟩
      [("a", true, 1), ("b", false, 1/2)] rfl rfl (by norm_num)⟩

/-- Lookup after a Map.set: the written key reads the new value, every
other key reads as before. -/
lemma mapGet_mapSet (m : List (String × α)) (k k' : String) (v : α) :
    mapGet (mapSet m k v) k' = if k' = k then some v else mapGet m k' := by
  induction m with
  | nil =>
    by_cases h : k' = k
    · subst h; simp [mapSet, mapGet]
    · simp [mapSet, mapGet, h, Ne.symm h]
  | cons p rest ih =>
    by_cases hp : p.1 = k
    · by_cases h : k' = k
      · subst h; simp [mapSet, mapGet, hp]
      · simp [mapSet, mapGet, hp, h, Ne.symm h]
    · by_cases hpk : p.1 = k'
      · have hne : ¬ k' = k := fun hh => hp (hpk.trans hh)
        simp [mapSet, mapGet, hp, hpk, hne]
      · simp [mapSet, mapGet, hp, hpk, ih]

/-- C6 counterexample: with a single stored node, a bidirectional
self-relationship of type causes returns true but leaves only the
reverse edge caused_by on the node — the forward edge of the given type
is overwritten, so the claim fails for pairs of equal ids. -/
theorem c6_counterexample :
    (createRelationship ⟨[("a", ⟨"a", "t", "n", "s", 1, [], [], []⟩)]⟩
        "a" "a" "causes" 1 true).1 = true ∧
    (createRelationship ⟨[("a", ⟨"a", "t", "n", "s", 1, [], [], []⟩)]⟩
        "a" "a" "causes" 1 true).2.nodes =
      [("a", ⟨"a", "t", "n", "s", 1, [], [("a", ⟨"caused_by", 1⟩)], []⟩)] ∧
    ∀ p ∈ (createRelationship ⟨[("a", ⟨"a", "t", "n", "s", 1, [], [], []⟩)]⟩
        "a" "a" "causes" 1 true).2.nodes,
      ∀ e ∈ p.2.relationships, e.2.type ≠ "causes" := by
  refine ⟨rfl, rfl, ?_⟩
  decide

/-- C6 (amended): for DISTINCT stored node ids, a bidirectional
createRelationship returns true, sets the forward edge of the given
type on the source node and the reverse edge (reverse-type table with
the _by fallback) on the target node; and whenever either id is
unknown, the call returns false and leaves the whole store untouched. -/
theorem c6_theorem (ig : KnowledgeIntegrator) (srcId tgtId type : String) (conf : ℚ) :
    (∀ src tgt : KnowledgeNode, srcId ≠ tgtId →
      mapGet ig.nodes srcId = some src → mapGet ig.nodes tgtId = some tgt →
      (createRelationship ig srcId tgtId type conf true).1 = true ∧
      ∃ src2 tgt2 : KnowledgeNode,
        mapGet (createRelationship ig srcId tgtId type conf true).2.nodes srcId =
          some src2 ∧
        mapGet (createRelationship ig srcId tgtId type conf true).2.nodes tgtId =
          some tgt2 ∧
        mapGet src2.relationships tgtId = some ⟨type, conf⟩ ∧
        mapGet tgt2.relationships srcId =
          some ⟨getReverseRelationshipType type, conf⟩) ∧
    (∀ bidirectional : Bool,
      mapGet ig.nodes srcId = none ∨ mapGet ig.nodes tgtId = none →
      createRelationship ig srcId tgtId type conf bidirectional = (false, ig)) := by
  constructor
  · intro src tgt hne h1 h2
    have hres : createRelationship ig srcId tgtId type conf true =
        (true,
         ⟨mapSet (mapSet ig.nodes srcId (addRelationship src tgtId type conf)) tgtId
            (addRelationship
              ((mapGet (mapSet ig.nodes srcId (addRelationship src tgtId type conf))
                  tgtId).getD tgt)
              srcId (getReverseRelationshipType type) conf)⟩) := by
      unfold createRelationship
      rw [h1, h2]
      rfl
    have hmid : mapGet (mapSet ig.nodes srcId (addRelationship src tgtId type conf))
        tgtId = some tgt := by
      rw [mapGet_mapSet, if_neg (Ne.symm hne), h2]
    refine ⟨by rw [hres], addRelationship src tgtId type conf,
      addRelationship tgt srcId (getReverseRelationshipType type) conf, ?_, ?_, ?_, ?_⟩
    · rw [hres]
      simp only
      rw [hmid]
      simp only [Option.getD_some]
      rw [mapGet_mapSet, if_neg hne, mapGet_mapSet, if_pos rfl]
    · rw [hres]
      simp only
      rw [hmid]
      simp only [Option.getD_some]
      rw [mapGet_mapSet, if_pos rfl]
    · unfold addRelationship
      simp only
      rw [mapGet_mapSet, if_pos rfl]
    · unfold addRelationship
      simp only
      rw [mapGet_mapSet, if_pos rfl]
  · intro bidirectional h
    unfold createRelationship
    rcases h with h | h
    · rw [h]
    · rw [h]
      cases mapGet ig.nodes srcId <;> rfl

/-- C6 witness: two distinct stored nodes, a bidirectional causes edge. -/
theorem c6_witness :
    (createRelationship
        ⟨[("a", ⟨"a", "t", "n", "s", 1, [], [], []⟩),
          ("b", ⟨"b", "t", "n2", "s", 1, [], [], []⟩)]⟩
        "a" "b" "causes" 1 true).1 = true ∧
    ∃ src2 tgt2 : KnowledgeNode,
      mapGet (createRelationship
          ⟨[("a", ⟨"a", "t", "n", "s", 1, [], [], []⟩),
            ("b", ⟨"b", "t", "n2", "s", 1, [], [], []⟩)]⟩
          "a" "b" "causes" 1 true).2.nodes "a" = some src2 ∧
      mapGet (createRelationship
          ⟨[("a", ⟨"a", "t", "n", "s", 1, [], [], []⟩),
            ("b", ⟨"b", "t", "n2", "s", 1, [], [], []⟩)]⟩
          "a" "b" "causes" 1 true).2.nodes "b" = some tgt2 ∧
      mapGet src2.relationships "b" = some ⟨"causes", 1⟩ ∧
      mapGet tgt2.relationships "a" = some ⟨getReverseRelationshipType "causes", 1⟩ :=
  (c6_theorem
      ⟨[("a", ⟨"a", "t", "n", "s", 1, [], [], []⟩),
        ("b", ⟨"b", "t", "n2", "s", 1, [], [], []⟩)]⟩
      "a" "b" "causes" 1).1
    ⟨"a", "t", "n", "s", 1, [], [], []⟩ ⟨"b", "t", "n2", "s", 1, [], [], []⟩
    (by decide) rfl rfl

/-- C7: over the stored knowledge items, the direct pass of
discoverRelations emits a similar_to relation at 0.6 on a type match;
when the category reads are also equal it boosts that relation to 0.8
and appends the category evidence entry, and when only the categories
match (no type match) it creates a fresh similar_to relation at 0.7. -/
theorem c7_direct_pass (srcId tgtId : String) (a b : KnowledgeItem)
    (_ha : a ∈ seedItems.map Prod.snd) (_hb : b ∈ seedItems.map Prod.snd) :
    (a.type = b.type →
      attrLookup a.attributes "category" = attrLookup b.attributes "category" →
      directRelations srcId tgtId a b =
        [{ sourceId := srcId, targetId := tgtId, type := "similar_to",
           confidence := 0.8,
           evidence := [("type_matching", "Both items are of type " ++ a.type),
                        ("category_matching",
                         "Both items belong to category " ++
                           attrRender (attrLookup a.attributes "category"))] }]) ∧
    (a.type = b.type →
      attrLookup a.attributes "category" ≠ attrLookup b.attributes "category" →
      directRelations srcId tgtId a b =
        [{ sourceId := srcId, targetId := tgtId, type := "similar_to",
           confidence := 0.6,
           evidence := [("type_matching", "Both items are of type " ++ a.type)] }]) ∧
    (a.type ≠ b.type →
      attrLookup a.attributes "category" = attrLookup b.attributes "category" →
      directRelations srcId tgtId a b =
        [{ sourceId := srcId, targetId := tgtId, type := "similar_to",
           confidence := 0.7,
           evidence := [("category_matching",
             "Both items belong to category " ++
               attrRender (attrLookup a.attributes "category"))] }]) := by
  refine ⟨?_, ?_, ?_⟩
  · intro ht hc
    simp [directRelations, ht, hc, updateFirst]
    norm_num
  · intro ht hc
    simp [directRelations, ht, hc]
  · intro ht hc
    simp [directRelations, ht, hc]

/-- C7 witness at the stored pair concept-1, concept-2 (types and
categories both match): the boosted 0.8 relation with both evidence
entries. -/
theorem c7_witness :
    directRelations "concept-1" "concept-2"
      { id := "concept-1", type := "concept", name := "تقوى",
        description := "الوقاية من عذاب الله بطاعته",
        attributes := [("category", .str "قيمة"), ("domain", .str "أخلاق"),
                       ("implications", .strList ["خشية", "طاعة"])] }
      { id := "concept-2", type := "concept", name := "إيمان",
        description := "التصديق بالقلب والإقرار باللسان والعمل بالجوارح",
        attributes := [("category", .str "قيمة"), ("domain", .str "عقيدة"),
                       ("implications", .strList ["عمل صالح", "تقوى"])] } =
      [{ sourceId := "concept-1", targetId := "concept-2", type := "similar_to",
         confidence := 0.8,
         evidence := [("type_matching", "Both items are of type concept"),
                      ("category_matching",
                       "Both items belong to category قيمة")] }] := by
  exact (c7_direct_pass "concept-1" "concept-2" _ _ (by decide) (by decide)).1 rfl rfl

/-- Every confidence the linguistic scorer produces is at least the
0.7 base. -/
lemma calculatePatternConfidence_ge (text : List Char) (type : String) :
    (0.7 : ℚ) ≤ calculatePatternConfidence text type := by
  simp only [calculatePatternConfidence]
  rw [le_min_iff]
  constructor
  · split_ifs <;> norm_num
  · norm_num

/-- Pointwise shorter branches give a shorter flatMap. -/
lemma length_flatMap_mono {l : List α} {f g : α → List β}
    (h : ∀ x ∈ l, (f x).length ≤ (g x).length) :
    (l.flatMap f).length ≤ (l.flatMap g).length := by
  induction l with
  | nil => simp
  | cons x xs ih =>
    simp only [List.flatMap_cons, List.length_append]
    exact Nat.add_le_add (h x (List.mem_cons_self x xs))
      (ih fun y hy => h y (List.mem_cons_of_mem x hy))

/-- A filterMap that fires on fewer elements is at most as long. -/
lemma length_filterMap_mono {l : List α} {f g : α → Option β}
    (h : ∀ x ∈ l, (f x).isSome → (g x).isSome) :
    (l.filterMap f).length ≤ (l.filterMap g).length := by
  induction l with
  | nil => simp
  | cons x xs ih =>
    have hrec := ih fun y hy => h y (List.mem_cons_of_mem x hy)
    simp only [List.filterMap_cons]
    cases hf : f x with
    | none =>
      cases hg : g x
      · exact hrec
      · exact le_trans hrec (Nat.le_succ _)
    | some bf =>
      have hs := h x (List.mem_cons_self x xs) (by rw [hf]; rfl)
      cases hg : g x with
      | none => rw [hg] at hs; simp at hs
      | some bg => simpa using Nat.succ_le_succ hrec

/-- Pointwise equal branches give equal flatMaps. -/
lemma flatMap_congr_of_mem {l : List α} {f g : α → List β}
    (h : ∀ x ∈ l, f x = g x) : l.flatMap f = l.flatMap g := by
  induction l with
  | nil => rfl
  | cons x xs ih =>
    simp only [List.flatMap_cons]
    rw [h x (List.mem_cons_self x xs), ih fun y hy => h y (List.mem_cons_of_mem x hy)]

/-- Pointwise equal partial functions give equal filterMaps. -/
lemma filterMap_congr_of_mem {l : List α} {f g : α → Option β}
    (h : ∀ x ∈ l, f x = g x) : l.filterMap f = l.filterMap g := by
  induction l with
  | nil => rfl
  | cons x xs ih =>
    simp only [List.filterMap_cons]
    rw [h x (List.mem_cons_self x xs), ih fun y hy => h y (List.mem_cons_of_mem x hy)]

/-- Every pattern in the linguistic output clears both its filtering
threshold and the 0.7 base. -/
lemma mem_detectLinguisticPatterns {t : List Char} {m : ℚ} {p : Pattern}
    (hp : p ∈ detectLinguisticPatterns t m) :
    m ≤ p.confidence ∧ (0.7 : ℚ) ≤ p.confidence := by
  unfold detectLinguisticPatterns at hp
  rw [List.mem_flatMap] at hp
  obtain ⟨pat, _, hp⟩ := hp
  rw [List.mem_filterMap] at hp
  obtain ⟨mp, _, hf⟩ := hp
  simp only at hf
  split at hf
  · rename_i hcond
    cases hf
    exact ⟨hcond, calculatePatternConfidence_ge _ _⟩
  · cases hf

/-- Raising the linguistic threshold never lengthens the output. -/
lemma detectLinguisticPatterns_anti (t : List Char) {a b : ℚ} (h : a ≤ b) :
    (detectLinguisticPatterns t b).length ≤ (detectLinguisticPatterns t a).length := by
  unfold detectLinguisticPatterns
  apply length_flatMap_mono
  intro pat _
  apply length_filterMap_mono
  intro mp _
  simp only
  split
  · rename_i hcond
    rw [if_pos (le_trans h hcond)]
    intro
    rfl
  · intro hs
    simp at hs

/-- Below the 0.7 base every threshold keeps every candidate, so any two
thresholds at most 0.7 give the same linguistic output. -/
lemma detectLinguisticPatterns_low (t : List Char) {a b : ℚ}
    (ha : a ≤ 0.7) (hb : b ≤ 0.7) :
    detectLinguisticPatterns t a = detectLinguisticPatterns t b := by
  unfold detectLinguisticPatterns
  apply flatMap_congr_of_mem
  intro pat _
  apply filterMap_congr_of_mem
  intro mp _
  simp only
  rw [if_pos (le_trans ha (calculatePatternConfidence_ge _ _)),
    if_pos (le_trans hb (calculatePatternConfidence_ge _ _))]

/-- The semantic detector never reads its threshold argument. -/
lemma detectSemanticPatterns_const (t : List Char) (a b : ℚ) :
    detectSemanticPatterns t a = detectSemanticPatterns t b := rfl

/-- C3 counterexample: with includeSemanticPatterns the source appends
semantic patterns without applying the threshold, so the text containing
one question-answer match returns a pattern of confidence 0.85 under a
requested minConfidence of 0.9. -/
theorem c3_counterexample :
    ¬ ∀ p ∈ detectPatterns "a? b.".data
        ({ minConfidence := some 0.9, includeSemanticPatterns := true } : DetectOptions),
      (0.9 : ℚ) ≤ p.confidence := by
  intro hall
  have hq : matchAll "a? b.".data (questionMatcher "a? b.".data) = [(0, 5)] := by decide
  have hp : ({ type := "question_answer"
               text := "a? b.".data
               startPos := 0
               endPos := 5
               confidence := 0.85 } : Pattern) ∈
      detectPatterns "a? b.".data
        ({ minConfidence := some 0.9, includeSemanticPatterns := true } : DetectOptions) := by
    simp only [detectPatterns]
    apply List.mem_append_right
    rw [if_pos trivial]
    unfold detectSemanticPatterns
    apply List.mem_append_left
    rw [hq]
    exact List.mem_singleton.mpr rfl
  have := hall _ hp
  norm_num at this

/-- C3 (amended): with semantic patterns disabled (their branch bypasses
the filter) every returned pattern clears the effective threshold; and
for every text and options the result count is antitone in the
minConfidence parameter. -/
theorem c3_theorem :
    (∀ (t : List Char) (mo : Option ℚ) (p : Pattern),
      p ∈ detectPatterns t ⟨mo, false⟩ →
      effMinConfidence ⟨mo, false⟩ 0.7 ≤ p.confidence) ∧
    (∀ (t : List Char) (m1 m2 : ℚ) (sem : Bool), m1 ≤ m2 →
      (detectPatterns t ⟨some m2, sem⟩).length ≤
        (detectPatterns t ⟨some m1, sem⟩).length) := by
  constructor
  · intro t mo p hp
    simp only [detectPatterns, if_neg Bool.false_ne_true, List.append_nil] at hp
    exact (mem_detectLinguisticPatterns hp).1
  · intro t m1 m2 sem h
    have hsem : (if sem then detectSemanticPatterns t (effMinConfidence ⟨some m2, sem⟩ 0.7)
          else []) =
        (if sem then detectSemanticPatterns t (effMinConfidence ⟨some m1, sem⟩ 0.7)
          else []) := by
      cases sem <;> rfl
    simp only [detectPatterns, List.length_append, hsem]
    apply Nat.add_le_add_right
    have e1 : effMinConfidence ⟨some m1, sem⟩ 0.7 = if m1 = 0 then 0.7 else m1 := rfl
    have e2 : effMinConfidence ⟨some m2, sem⟩ 0.7 = if m2 = 0 then 0.7 else m2 := rfl
    rw [e1, e2]
    rcases eq_or_ne m1 0 with rfl | h1 <;> rcases eq_or_ne m2 0 with rfl | h2
    · simp
    · rw [if_pos rfl, if_neg h2]
      rcases le_or_lt 0.7 m2 with hm | hm
      · exact detectLinguisticPatterns_anti t hm
      · rw [detectLinguisticPatterns_low t (le_of_lt hm) (le_refl (0.7 : ℚ))]
    · rw [if_neg h1, if_pos rfl]
      have hm1 : m1 ≤ 0.7 := le_trans h (by norm_num)
      exact detectLinguisticPatterns_anti t hm1
    · rw [if_neg h1, if_neg h2]
      exact detectLinguisticPatterns_anti t h

/-- C3 witness: the repetition pattern of "ab ab" clears the default
threshold, and raising the threshold from 1 to 2 does not lengthen the
output. -/
theorem c3_witness :
    effMinConfidence ⟨none, false⟩ 0.7 ≤
      calculatePatternConfidence (("ab ab".data.drop 0).take (5 - 0)) "repetition" ∧
    (detectPatterns "ab ab".data ⟨some 2, false⟩).length ≤
      (detectPatterns "ab ab".data ⟨some 1, false⟩).length := by
  refine ⟨?_, c3_theorem.2 "ab ab".data 1 2 false (by norm_num)⟩
  refine c3_theorem.1 "ab ab".data none
    { type := "repetition"
      text := ("ab ab".data.drop 0).take (5 - 0)
      startPos := 0
      endPos := 5
      confidence := calculatePatternConfidence (("ab ab".data.drop 0).take (5 - 0))
        "repetition" } ?_
  simp only [detectPatterns, if_neg Bool.false_ne_true, List.append_nil]
  unfold detectLinguisticPatterns
  rw [List.mem_flatMap]
  refine ⟨("repetition", repetitionMatcher), by simp [linguisticPatterns], ?_⟩
  rw [List.mem_filterMap]
  refine ⟨(0, 5), ?_, ?_⟩
  · have hm : matchAll "ab ab".data (repetitionMatcher "ab ab".data) = [(0, 5)] := by
      decide
    rw [hm]
    exact List.mem_singleton.mpr rfl
  · simp only
    have hcond : calculatePatternConfidence (("ab ab".data.drop 0).take (5 - 0))
        "repetition" ≥ effMinConfidence ⟨none, false⟩ 0.7 :=
      calculatePatternConfidence_ge _ _
    rw [if_pos hcond]

/-- Soundness of the semantic type-pair pass: every emitted relationship
comes from a rule-matching pair of distinct entities whose similarity
strictly exceeds the 0.5 gate, with confidence base times similarity. -/
lemma semanticPass_sound (entities : List Entity) :
    ∀ r ∈ semanticPass entities,
      ∃ rule ∈ semanticRules, ∃ s ∈ entities, ∃ tg ∈ entities,
        s.type = rule.1 ∧ tg.type = rule.2.1 ∧ s.id ≠ tg.id ∧
        (0.5 : ℚ) < calculateSemanticSimilarity s tg ∧
        r = { type := rule.2.2.1
              sourceEntityId := s.id
              targetEntityId := tg.id
              confidence := rule.2.2.2 * calculateSemanticSimilarity s tg
              evidence := [("semantic_analysis",
                "Semantic relationship between " ++ s.name ++ " and " ++ tg.name)] } := by
  intro r hr
  unfold semanticPass at hr
  rw [List.mem_flatMap] at hr
  obtain ⟨rule, hrule, hr⟩ := hr
  rw [List.mem_flatMap] at hr
  obtain ⟨s, hs, hr⟩ := hr
  rw [List.mem_filterMap] at hr
  obtain ⟨tg, htg, heq⟩ := hr
  rw [List.mem_filter] at hs htg
  refine ⟨rule, hrule, s, hs.1, tg, htg.1, ?_, ?_⟩
  · exact (beq_iff_eq.mp hs.2 : s.type = rule.1)
  · refine ⟨(beq_iff_eq.mp htg.2 : tg.type = rule.2.1), ?_⟩
    simp only at heq
    split at heq
    · rename_i hne
      split at heq
      · rename_i hgt
        cases heq
        exact ⟨bne_iff_ne.mp hne, hgt, rfl⟩
      · cases heq
    · cases heq

/-- Completeness of the semantic type-pair pass: every rule-matching
pair of distinct entities above the similarity gate is emitted. -/
lemma semanticPass_complete (entities : List Entity) :
    ∀ rule ∈ semanticRules, ∀ s ∈ entities, ∀ tg ∈ entities,
      s.type = rule.1 → tg.type = rule.2.1 → s.id ≠ tg.id →
      (0.5 : ℚ) < calculateSemanticSimilarity s tg →
      ({ type := rule.2.2.1
         sourceEntityId := s.id
         targetEntityId := tg.id
         confidence := rule.2.2.2 * calculateSemanticSimilarity s tg
         evidence := [("semantic_analysis",
           "Semantic relationship between " ++ s.name ++ " and " ++ tg.name)] } :
        Relationship) ∈ semanticPass entities := by
  intro rule hrule s hs tg htg h1 h2 h3 h4
  unfold semanticPass
  rw [List.mem_flatMap]
  refine ⟨rule, hrule, ?_⟩
  rw [List.mem_flatMap]
  refine ⟨s, List.mem_filter.mpr ⟨hs, beq_iff_eq.mpr h1⟩, ?_⟩
  rw [List.mem_filterMap]
  refine ⟨tg, List.mem_filter.mpr ⟨htg, beq_iff_eq.mpr h2⟩, ?_⟩
  simp only
  rw [if_pos (bne_iff_ne.mpr h3), if_pos h4]

/-- First counterexample entity for the semantic-pass gate: a concept
with two attributes. -/
def c8entityA : Entity :=
  { id := "x1", type := "concept", name := "a",
    attributes := [("category", "c1"), ("k", "v")], references := [] }

/-- Second counterexample entity: a concept sharing exactly one of its
two attributes with the first, so the similarity is 1/2. -/
def c8entityB : Entity :=
  { id := "x2", type := "concept", name := "b",
    attributes := [("category", "c1"), ("k2", "v2")], references := [] }

/-- C8 counterexample: the pair matches the concept-concept rule with
similarity 1/2 and claimed confidence 0.5 times 1/2 = 0.25, which
clears the requested minConfidence 0.2 — yet the output holds no
relationship at all, because the source gates the semantic pass on
similarity strictly above 0.5 before the final filter. -/
theorem c8_counterexample :
    calculateSemanticSimilarity c8entityA c8entityB = 1 / 2 ∧
    ("concept", "concept", "related_to", (0.5 : ℚ)) ∈ semanticRules ∧
    (0.2 : ℚ) ≤ 0.5 * (1 / 2) ∧
    discoverRelationships [c8entityA, c8entityB] (some 0.2) = [] := by
  have hsim : calculateSemanticSimilarity c8entityA c8entityB = 1 / 2 := by
    have hcount : (c8entityA.attributes.flatMap fun pa =>
        c8entityB.attributes.filter fun pb => pa.1 == pb.1 && pa.2 == pb.2).length = 1 := by
      decide
    unfold calculateSemanticSimilarity
    rw [hcount]
    norm_num [c8entityA, c8entityB]
  have hsimBA : calculateSemanticSimilarity c8entityB c8entityA = 1 / 2 := by
    have hcount : (c8entityB.attributes.flatMap fun pa =>
        c8entityA.attributes.filter fun pb =>
          pa.1 == pb.1 && pa.2 == pb.2).length = 1 := by
      decide
    unfold calculateSemanticSimilarity
    rw [hcount]
    norm_num [c8entityA, c8entityB]
  refine ⟨hsim, by simp [semanticRules], by norm_num, ?_⟩
  have hprox : proximityPass [c8entityA, c8entityB] = [] := by
    have hord : ordPairs [c8entityA, c8entityB] = [(c8entityA, c8entityB)] := rfl
    have hpr : calculateProximity c8entityA c8entityB = 0 := rfl
    unfold proximityPass
    rw [hord, List.filterMap_cons]
    simp only [hpr]
    rw [if_neg (by norm_num)]
    rfl
  have hatt : attributePass [c8entityA, c8entityB] = [] := rfl
  have hsem : semanticPass [c8entityA, c8entityB] = [] := by
    rw [List.eq_nil_iff_forall_not_mem]
    intro r hr
    obtain ⟨rule, hrule, s, hs, tg, htg, hstype, htgtype, hne, hgt, -⟩ :=
      semanticPass_sound _ r hr
    simp only [semanticRules, List.mem_cons, List.not_mem_nil, or_false] at hrule
    simp only [List.mem_cons, List.not_mem_nil, or_false] at hs htg
    rcases hrule with h | h | h | h <;> subst h <;>
      rcases hs with rfl | rfl <;> rcases htg with rfl | rfl <;>
      first
        | (exact absurd hstype (by decide))
        | (exact absurd htgtype (by decide))
        | (exact hne rfl)
        | (rw [hsim] at hgt; norm_num at hgt)
        | (rw [hsimBA] at hgt; norm_num at hgt)
  unfold discoverRelationships
  rw [hprox, hatt, hsem]
  rfl

/-- C8 (amended): the semantic pass emits a relationship for exactly the
rule-matching pairs of distinct entities whose similarity is strictly
above 0.5 (a separate gate, applied before the final minConfidence
filter), with confidence baseConfidence times similarity. -/
theorem c8_theorem (entities : List Entity) :
    (∀ r ∈ semanticPass entities,
      ∃ rule ∈ semanticRules, ∃ s ∈ entities, ∃ tg ∈ entities,
        s.type = rule.1 ∧ tg.type = rule.2.1 ∧ s.id ≠ tg.id ∧
        (0.5 : ℚ) < calculateSemanticSimilarity s tg ∧
        r = { type := rule.2.2.1
              sourceEntityId := s.id
              targetEntityId := tg.id
              confidence := rule.2.2.2 * calculateSemanticSimilarity s tg
              evidence := [("semantic_analysis",
                "Semantic relationship between " ++ s.name ++ " and " ++ tg.name)] }) ∧
    (∀ rule ∈ semanticRules, ∀ s ∈ entities, ∀ tg ∈ entities,
      s.type = rule.1 → tg.type = rule.2.1 → s.id ≠ tg.id →
      (0.5 : ℚ) < calculateSemanticSimilarity s tg →
      ({ type := rule.2.2.1
         sourceEntityId := s.id
         targetEntityId := tg.id
         confidence := rule.2.2.2 * calculateSemanticSimilarity s tg
         evidence := [("semantic_analysis",
           "Semantic relationship between " ++ s.name ++ " and " ++ tg.name)] } :
        Relationship) ∈ semanticPass entities) := by
  constructor
  · intro r hr
    obtain ⟨rule, hrule, s, hs, tg, htg, h1, h2, h3, h4, h5⟩ :=
      semanticPass_sound entities r hr
    exact ⟨rule, hrule, s, hs, tg, htg, h1, h2, h3, h4, h5⟩
  · exact semanticPass_complete entities

/-- C8 witness: two distinct single-attribute entities of types person
and place agreeing on their attribute (similarity 1) produce the
located_in relationship at 0.6 times 1. -/
theorem c8_witness :
    ({ type := ("person", "place", "located_in", (0.6 : ℚ)).2.2.1
       sourceEntityId := (⟨"p1", "person", "zayd", [("category", "c")], []⟩ : Entity).id
       targetEntityId := (⟨"p2", "place", "makkah", [("category", "c")], []⟩ : Entity).id
       confidence := ("person", "place", "located_in", (0.6 : ℚ)).2.2.2 *
         calculateSemanticSimilarity ⟨"p1", "person", "zayd", [("category", "c")], []⟩
           ⟨"p2", "place", "makkah", [("category", "c")], []⟩
       evidence := [("semantic_analysis",
         "Semantic relationship between " ++
           (⟨"p1", "person", "zayd", [("category", "c")], []⟩ : Entity).name ++ " and " ++
           (⟨"p2", "place", "makkah", [("category", "c")], []⟩ : Entity).name)] } :
      Relationship) ∈
      semanticPass [⟨"p1", "person", "zayd", [("category", "c")], []⟩,
        ⟨"p2", "place", "makkah", [("category", "c")], []⟩] :=
  (c8_theorem _).2 ("person", "place", "located_in", (0.6 : ℚ)) (by simp [semanticRules])
    ⟨"p1", "person", "zayd", [("category", "c")], []⟩ (List.mem_cons_self _ _)
    ⟨"p2", "place", "makkah", [("category", "c")], []⟩
    (List.mem_cons_of_mem _ (List.mem_cons_self _ _))
    rfl rfl (by decide)
    (by
      have : calculateSemanticSimilarity
          ⟨"p1", "person", "zayd", [("category", "c")], []⟩
          ⟨"p2", "place", "makkah", [("category", "c")], []⟩ = 1 := by
        have hcount : ((⟨"p1", "person", "zayd", [("category", "c")], []⟩ :
            Entity).attributes.flatMap fun pa =>
              (⟨"p2", "place", "makkah", [("category", "c")], []⟩ :
                Entity).attributes.filter fun pb =>
                  pa.1 == pb.1 && pa.2 == pb.2).length = 1 := by decide
        unfold calculateSemanticSimilarity
        rw [hcount]
        norm_num
      rw [this]
      norm_num)

/-- At depth exactly 1 the matching-concept loop never recurses. -/
lemma matchLoop_one (cs : List Concept) (s : ExploreState) :
    matchLoop 1 cs s = matchOnceLoop cs s := by
  induction cs generalizing s with
  | nil => rw [matchLoop, matchOnceLoop]
  | cons c rest ih =>
    rw [matchLoop, matchOnceLoop]
    simp only [dif_neg (by omega : ¬ (1 : Int) < 1)]
    rw [ih]
    simp only [List.nil_append]

/-- C10: the recursive exploration stops at depth at most 0 and on
already-visited names without touching the store, and at depth 1 it
equals the non-recursive one-level exploration — for every concept
store, including self-referential or cyclic relatedness, every name and
every threaded state. -/
theorem c10_exploration_bounded :
    (∀ (d : Int) (name : String) (s : ExploreState), d ≤ 0 →
      exploreRec d name s = ([], s)) ∧
    (∀ (d : Int) (name : String) (s : ExploreState),
      s.visited.contains name = true → exploreRec d name s = ([], s)) ∧
    (∀ (name : String) (s : ExploreState),
      exploreRec 1 name s = exploreOneLevel name s) := by
  refine ⟨?_, ?_, ?_⟩
  · intro d name s hd
    rw [exploreRec]
    rw [if_pos (Or.inl hd)]
  · intro d name s hv
    rw [exploreRec]
    rw [if_pos (Or.inr hv)]
  · intro name s
    by_cases hv : s.visited.contains name = true
    · rw [exploreRec]
      rw [if_pos (Or.inr hv)]
      unfold exploreOneLevel
      rw [if_pos hv]
    · rw [exploreRec]
      rw [if_neg (not_or.mpr ⟨by omega, hv⟩)]
      unfold exploreOneLevel
      rw [if_neg hv]
      simp only
      split
      · rfl
      · exact matchLoop_one _ _

/-- C10 witness: on the seed store — whose placeholder relatedness links
every concept to every other one, so the relatedness graph is cyclic —
exploration stops at nonpositive depth, stops on a visited name, and at
depth 1 equals the one-level exploration. -/
theorem c10_witness :
    ((-3 : Int) ≤ 0 ∧
      exploreRec (-3) "تقوى" ⟨initialConcepts, [], 0⟩ =
        ([], ⟨initialConcepts, [], 0⟩)) ∧
    ((⟨initialConcepts, ["تقوى"], 0⟩ : ExploreState).visited.contains "تقوى" = true ∧
      exploreRec 5 "تقوى" ⟨initialConcepts, ["تقوى"], 0⟩ =
        ([], ⟨initialConcepts, ["تقوى"], 0⟩)) ∧
    exploreRec 1 "تقوى" ⟨initialConcepts, [], 0⟩ =
      exploreOneLevel "تقوى" ⟨initialConcepts, [], 0⟩ :=
  ⟨⟨by norm_num,
    c10_exploration_bounded.1 (-3) "تقوى" ⟨initialConcepts, [], 0⟩ (by norm_num)⟩,
   ⟨by decide,
    c10_exploration_bounded.2.1 5 "تقوى" ⟨initialConcepts, ["تقوى"], 0⟩ (by decide)⟩,
   c10_exploration_bounded.2.2 "تقوى" ⟨initialConcepts, [], 0⟩⟩

end IQAS
